import Mathlib

/-
Verification of `src/tools/python/repl/repl.py`, an 18-line script that
configures and launches an interactive read-eval-print console.  The
script imports the modules `code`, `readline`, `rlcompleter` and `sys`
(lines 1-4) and then runs:

  vs = globals()
  vs.update(locals())
  readline.set_completer(rlcompleter.Completer(vs).complete)
  if sys.platform.startswith('linux'):
      print("use linux...")
      readline.parse_and_bind('tab: complete')
  elif sys.platform == 'darwin':
      print("use darwin...")
      readline.parse_and_bind('bind ^I rl_complete')

  code.InteractiveConsole(vs).interact()

The development embeds the module body as (a) an observable event trace
parameterised by the platform identifier, and (b) a heap of dictionaries
capturing that `globals()` returns a reference to the module-global dict,
so `vs` is an alias of it.  The behaviour of the standard-library pieces
(`code.InteractiveConsole.interact`, `rlcompleter.Completer.complete`) is
not part of the repository source; it is modelled from the specification
where a claim needs it, and marked as such.
-/

namespace Repl

/-- Runtime values stored in a Python dictionary in this program: imported
modules, references to heap-allocated dictionaries, and integers (for
user-session statements such as `x = 5`). -/
inductive Value where
  | module (name : String)
  | dictRef (a : Nat)
  | int (z : Int)
  deriving Repr, DecidableEq

/-- A Python dictionary, as an association list from identifier to value.
Python dictionaries have unique keys; insertion replaces in place. -/
abbrev Dict := List (String × Value)

/-- Dictionary lookup, `d[x]` / `d.get(x)`. -/
def lookup : Dict → String → Option Value
  | [], _ => none
  | (k, v) :: rest, x => if k = x then some v else lookup rest x

/-- Dictionary insertion, `d[x] = v`: replaces the value of an existing key
in place (keeping its position, as Python dicts do) or appends a new key. -/
def insert : Dict → String → Value → Dict
  | [], k, v => [(k, v)]
  | (k2, v2) :: rest, k, v =>
      if k2 = k then (k, v) :: rest else (k2, v2) :: insert rest k v

/-- The key list of a dictionary. -/
def keys (d : Dict) : List String := d.map Prod.fst

/-- Dictionary update, `d.update(other)`: inserts every entry of `other`
into `d`, left to right. -/
def dictUpdate (d other : Dict) : Dict :=
  other.foldl (fun acc kv => insert acc kv.1 kv.2) d

/-- The heap of dictionary objects: each allocated dictionary lives at an
address; a `Value.dictRef a` value is an alias of the object at `a`, not a
copy of its contents. -/
abbrev Heap := List (Nat × Dict)

/-- Read the dictionary object at address `a`. -/
def heapGet : Heap → Nat → Option Dict
  | [], _ => none
  | (b, d) :: rest, a => if b = a then some d else heapGet rest a

/-- Overwrite the dictionary object at address `a` (in-place mutation of
the object all aliases of `a` see). -/
def heapSet : Heap → Nat → Dict → Heap
  | [], _, _ => []
  | (b, d) :: rest, a, nd =>
      if b = a then (a, nd) :: rest else (b, d) :: heapSet rest a nd

/-- The address of the module-global dictionary of `repl.py`. -/
def GLOBALS_ADDR : Nat := 0

/-- The value returned by `globals()` inside `repl.py`: a reference to the
module-global dictionary itself, not a copy. -/
def pyGlobals : Value := .dictRef GLOBALS_ADDR

/-- The value returned by `locals()` at module level: at module level,
`locals()` returns the very same dictionary as `globals()`. -/
def pyLocalsModuleLevel : Value := .dictRef GLOBALS_ADDR

/-- The module-global dictionary after the four imports on lines 1-4 of
`repl.py`: the names `code`, `readline`, `rlcompleter`, `sys` bound to the
imported modules. -/
def importedGlobals : Dict :=
  [("code", .module "code"), ("readline", .module "readline"),
   ("rlcompleter", .module "rlcompleter"), ("sys", .module "sys")]

/-- The heap after the imports: the single allocated dictionary is the
module-global one. -/
def heapAfterImports : Heap := [(GLOBALS_ADDR, importedGlobals)]

/-- Assignment to a module-level name (`x = v` at top level of the script):
stores into the module-global dictionary. -/
def storeGlobal (h : Heap) (x : String) (v : Value) : Heap :=
  match heapGet h GLOBALS_ADDR with
  | some d => heapSet h GLOBALS_ADDR (insert d x v)
  | none => h

/-- Evaluate a module-level name: look it up in the module-global dict. -/
def loadGlobal (h : Heap) (x : String) : Option Value :=
  match heapGet h GLOBALS_ADDR with
  | some d => lookup d x
  | none => none

/-- The method call `target.update(source)` where both operands are
dictionary references: mutates the object `target` points at, in place. -/
def dictUpdateCall (h : Heap) (target source : Value) : Heap :=
  match target, source with
  | .dictRef a, .dictRef b =>
      match heapGet h a, heapGet h b with
      | some da, some db => heapSet h a (dictUpdate da db)
      | _, _ => h
  | _, _ => h

/-- Line 8, `vs = globals()`: bind the module-level name `vs` to a
reference to the module-global dictionary. -/
def heapAfterLine8 : Heap := storeGlobal heapAfterImports "vs" pyGlobals

/-- Line 9, `vs.update(locals())`: evaluate `vs`, and update the
dictionary it references with the contents of `locals()`. -/
def heapAfterLine9 : Heap :=
  match loadGlobal heapAfterLine8 "vs" with
  | some v => dictUpdateCall heapAfterLine8 v pyLocalsModuleLevel
  | none => heapAfterLine8

/-- Line 10: the namespace value handed to `rlcompleter.Completer(vs)`,
namely the current value of the name `vs`. -/
def completerNamespaceArg : Option Value := loadGlobal heapAfterLine9 "vs"

/-- Line 18: the namespace value handed to `code.InteractiveConsole(vs)`,
namely the current value of the name `vs`. -/
def consoleNamespaceArg : Option Value := loadGlobal heapAfterLine9 "vs"

/-- The contents of the module-global dictionary at the moment the console
is launched (after lines 8-9). -/
def moduleGlobalsAtLaunch : Dict := (heapGet heapAfterLine9 GLOBALS_ADDR).getD []

/-- Executing the assignment `x = v` inside the interactive console whose
namespace argument is `ns`: when `ns` is a dictionary reference, the bound
object is mutated in place. -/
def consoleAssign (h : Heap) (ns : Value) (x : String) (v : Value) : Heap :=
  match ns with
  | .dictRef a =>
      match heapGet h a with
      | some d => heapSet h a (insert d x v)
      | none => h
  | _ => h

/-- Python's `str.startswith`: `s.startswith(p)` holds when `p` is a
prefix of `s` (characterwise). -/
def strStartsWith (s p : String) : Bool := p.data.isPrefixOf s.data

/-- Observable startup actions of the module body of `repl.py`. -/
inductive Event where
  | buildNamespace
  | registerCompleter
  | printMsg (s : String)
  | bindKey (s : String)
  | enterLoop
  deriving Repr, DecidableEq

/-- Lines 11-16 of `repl.py`: the platform dispatch.
`if sys.platform.startswith('linux')` prints `use linux...` and binds
`tab: complete`; `elif sys.platform == 'darwin'` prints `use darwin...`
and binds `bind ^I rl_complete`; otherwise nothing. -/
def platformEvents (platform : String) : List Event :=
  if strStartsWith platform "linux" then
    [.printMsg "use linux...", .bindKey "tab: complete"]
  else if platform = "darwin" then
    [.printMsg "use darwin...", .bindKey "bind ^I rl_complete"]
  else []

/-- The whole module body of `repl.py` as an event trace: build the
namespace (lines 8-9), register the completer (line 10), run the platform
dispatch (lines 11-16), enter the interactive loop (line 18). -/
def startupTrace (platform : String) : List Event :=
  [.buildNamespace, .registerCompleter] ++ platformEvents platform ++ [.enterLoop]

/-- The informational messages printed during startup, in order. -/
def msgsPrinted (platform : String) : List String :=
  (startupTrace platform).filterMap fun e =>
    match e with
    | .printMsg s => some s
    | _ => none

/-- The completion key bindings configured during startup, in order. -/
def keyBindings (platform : String) : List String :=
  (startupTrace platform).filterMap fun e =>
    match e with
    | .bindKey s => some s
    | _ => none

/-- Modelled from the spec: the completion callback built by
`rlcompleter.Completer(vs).complete` (standard library, not in the
repository source).  Per the spec glossary, it is "a function, bound to a
namespace, that given a partial identifier returns candidate full
identifiers from that namespace": the namespace keys the partial
identifier is a prefix of. -/
def completeCandidates (ns : Dict) (text : String) : List String :=
  (keys ns).filter fun k => strStartsWith k text

/-- Modelled from the spec: expressions occurring in user-submitted
statements of the interactive session (literals, names, sums), enough to
express the spec's examples such as `x = 5` and referencing an undefined
name `y`. -/
inductive Expr where
  | lit (z : Int)
  | var (x : String)
  | add (a b : Expr)
  deriving Repr, DecidableEq

/-- Modelled from the spec: a statement submitted to the interactive
loop — an assignment, a bare expression, or an explicit interpreter-exit
action carrying an exit code. -/
inductive Stmt where
  | assign (x : String) (e : Expr)
  | expr (e : Expr)
  | exitAction (c : Nat)
  deriving Repr, DecidableEq

/-- Modelled from the spec: expression evaluation in the execution
namespace; referencing an undefined name raises a NameError. -/
def evalExpr (ns : Dict) : Expr → Except String Value
  | .lit z => .ok (.int z)
  | .var x =>
      match lookup ns x with
      | some v => .ok v
      | none => .error ("NameError: name " ++ x ++ " is not defined")
  | .add a b =>
      match evalExpr ns a, evalExpr ns b with
      | .ok (.int x), .ok (.int y) => .ok (.int (x + y))
      | .error m, _ => .error m
      | _, .error m => .error m
      | _, _ => .error "TypeError: unsupported operand types"

/-- Terminal output items of the interactive session: a prompt, a printed
result, or a printed error diagnostic. -/
inductive Out where
  | prompt
  | result (v : Value)
  | diag (m : String)
  deriving Repr, DecidableEq

/-- Modelled from the spec: executing one user-submitted (non-exit)
statement.  An error raised by the statement is caught by the loop,
printed as a diagnostic, and leaves the namespace unchanged; a successful
assignment mutates the namespace in place. -/
def execStmt (ns : Dict) : Stmt → Dict × List Out
  | .assign x e =>
      match evalExpr ns e with
      | .ok v => (insert ns x v, [])
      | .error m => (ns, [.diag m])
  | .expr e =>
      match evalExpr ns e with
      | .ok v => (ns, [.result v])
      | .error m => (ns, [.diag m])
  | .exitAction _ => (ns, [])

/-- The outcome of an interactive session: final namespace, terminal
output, and process exit code. -/
structure SessionResult where
  ns : Dict
  outs : List Out
  exitCode : Nat
  deriving Repr, DecidableEq

/-- Modelled from the spec: `code.InteractiveConsole(vs).interact()`
(standard library, not in the repository source).  The loop prints a
prompt, reads the next statement, executes it (catching and printing any
error it raises), and repeats; it terminates on end-of-input with exit
code 0 and no further prompt, or on an explicit exit action whose exit
code is passed through.  The input stream is the list of statements the
user submits before signalling end-of-input. -/
def interactLoop (ns : Dict) : List Stmt → SessionResult
  | [] => ⟨ns, [], 0⟩
  | s :: rest =>
      match s with
      | .exitAction c => ⟨ns, [.prompt], c⟩
      | _ =>
          let step := execStmt ns s
          let r := interactLoop step.1 rest
          ⟨r.ns, .prompt :: step.2 ++ r.outs, r.exitCode⟩

/-- Whether a statement is the explicit interpreter-exit action. -/
def isExitAction : Stmt → Bool
  | .exitAction _ => true
  | _ => false

/-- Whether a statement (re)binds the identifier `x`. -/
def assignsVar (s : Stmt) (x : String) : Bool :=
  match s with
  | .assign y _ => y = x
  | _ => false

/-- Whether an output item is a prompt. -/
def isPrompt : Out → Bool
  | .prompt => true
  | _ => false

/-- The number of prompts printed in a session output. -/
def promptCount (outs : List Out) : Nat := outs.countP isPrompt

/-- The platform dispatch has exactly three outcomes: the Linux pair of
actions, the Darwin pair, or nothing. -/
theorem platformEvents_cases (p : String) :
    platformEvents p = [.printMsg "use linux...", .bindKey "tab: complete"] ∨
    platformEvents p = [.printMsg "use darwin...", .bindKey "bind ^I rl_complete"] ∨
    platformEvents p = [] := by
  unfold platformEvents
  split
  · exact Or.inl rfl
  · split
    · exact Or.inr (Or.inl rfl)
    · exact Or.inr (Or.inr rfl)

/-- Looking up a key just inserted yields the inserted value. -/
theorem lookup_insert_self (d : Dict) (k : String) (v : Value) :
    lookup (insert d k v) k = some v := by
  induction d with
  | nil => simp [insert, lookup]
  | cons kv rest ih =>
      obtain ⟨k2, v2⟩ := kv
      by_cases h : k2 = k <;> simp [insert, lookup, h, ih]

/-- Inserting a key does not disturb the lookup of a different key. -/
theorem lookup_insert_ne (d : Dict) (k x : String) (v : Value) (h : k ≠ x) :
    lookup (insert d k v) x = lookup d x := by
  induction d with
  | nil => simp [insert, lookup, h]
  | cons kv rest ih =>
      obtain ⟨k2, v2⟩ := kv
      by_cases h2 : k2 = k
      · subst h2
        simp [insert, lookup, h]
      · simp [insert, lookup, h2, ih]

/-- A statement that does not bind `x` leaves the lookup of `x` intact. -/
theorem execStmt_lookup_preserved (ns : Dict) (s : Stmt) (x : String)
    (h : assignsVar s x = false) :
    lookup (execStmt ns s).1 x = lookup ns x := by
  cases s with
  | assign y e =>
      have hyx : y ≠ x := by simpa [assignsVar] using h
      cases hev : evalExpr ns e with
      | ok v => simp [execStmt, hev, lookup_insert_ne _ _ _ _ hyx]
      | error m => simp [execStmt, hev]
  | expr e => cases hev : evalExpr ns e <;> simp [execStmt, hev]
  | exitAction c => simp [execStmt]

/-- A whole session none of whose statements binds `x` leaves the lookup
of `x` intact. -/
theorem interactLoop_lookup_preserved (rest : List Stmt) :
    ∀ (ns : Dict) (x : String), (∀ s ∈ rest, assignsVar s x = false) →
      lookup (interactLoop ns rest).ns x = lookup ns x := by
  induction rest with
  | nil => intro ns x _; rfl
  | cons s t ih =>
      intro ns x h
      have hs : assignsVar s x = false := h s (List.mem_cons_self _ _)
      have ht : ∀ u ∈ t, assignsVar u x = false :=
        fun u hu => h u (List.mem_cons_of_mem _ hu)
      cases s with
      | exitAction c => simp [interactLoop]
      | assign y e =>
          simp only [interactLoop]
          rw [ih _ _ ht, execStmt_lookup_preserved _ _ _ hs]
      | expr e =>
          simp only [interactLoop]
          rw [ih _ _ ht, execStmt_lookup_preserved _ _ _ hs]

/-- Executing one statement never prints a prompt (prompts come from the
loop, one per read). -/
theorem promptCount_execStmt (ns : Dict) (s : Stmt) :
    promptCount (execStmt ns s).2 = 0 := by
  cases s with
  | assign y e => cases hev : evalExpr ns e <;> simp [execStmt, hev, promptCount, isPrompt]
  | expr e => cases hev : evalExpr ns e <;> simp [execStmt, hev, promptCount, isPrompt]
  | exitAction c => simp [execStmt, promptCount]

/-- A session whose input holds no exit action runs to end-of-input:
exit code 0 and exactly one prompt per submitted statement. -/
theorem interactLoop_no_exit (input : List Stmt) :
    ∀ ns : Dict, (∀ s ∈ input, isExitAction s = false) →
      (interactLoop ns input).exitCode = 0 ∧
      promptCount (interactLoop ns input).outs = input.length := by
  induction input with
  | nil => intro ns _; exact ⟨rfl, rfl⟩
  | cons s t ih =>
      intro ns h
      have hs : isExitAction s = false := h s (List.mem_cons_self _ _)
      have ht : ∀ u ∈ t, isExitAction u = false :=
        fun u hu => h u (List.mem_cons_of_mem _ hu)
      cases s with
      | exitAction c => simp [isExitAction] at hs
      | assign y e =>
          have hr := ih (execStmt ns (.assign y e)).1 ht
          have hp2 : List.countP isPrompt (execStmt ns (.assign y e)).2 = 0 :=
            promptCount_execStmt ns (.assign y e)
          have hr2 : List.countP isPrompt
              (interactLoop (execStmt ns (.assign y e)).1 t).outs = t.length := hr.2
          refine ⟨by simpa only [interactLoop] using hr.1, ?_⟩
          simp only [interactLoop, promptCount, List.countP_cons, List.countP_append,
            isPrompt, if_true, List.length_cons, hp2, hr2]
          omega
      | expr e =>
          have hr := ih (execStmt ns (.expr e)).1 ht
          have hp2 : List.countP isPrompt (execStmt ns (.expr e)).2 = 0 :=
            promptCount_execStmt ns (.expr e)
          have hr2 : List.countP isPrompt
              (interactLoop (execStmt ns (.expr e)).1 t).outs = t.length := hr.2
          refine ⟨by simpa only [interactLoop] using hr.1, ?_⟩
          simp only [interactLoop, promptCount, List.countP_cons, List.countP_append,
            isPrompt, if_true, List.length_cons, hp2, hr2]
          omega

/-- Filtering a duplicate-free list on a predicate that exactly one
member satisfies yields that member alone. -/
theorem filter_eq_singleton_of_unique {l : List String} {p : String → Bool} {k : String}
    (hnd : l.Nodup) (hk : k ∈ l) (hpk : p k = true)
    (huniq : ∀ x ∈ l, p x = true → x = k) :
    l.filter p = [k] := by
  induction l with
  | nil => cases hk
  | cons a t ih =>
      have hout : a ∉ t := (List.nodup_cons.mp hnd).1
      have hndt : t.Nodup := (List.nodup_cons.mp hnd).2
      rcases List.mem_cons.mp hk with rfl | hk2
      · have hft : t.filter p = [] := by
          rw [List.filter_eq_nil_iff]
          intro b hb hpb
          exact hout ((huniq b (List.mem_cons_of_mem _ hb) hpb) ▸ hb)
        simp [List.filter_cons, hpk, hft]
      · have hpa : p a = false := by
          by_contra hpa
          have haa : a = k := huniq a (List.mem_cons_self _ _) (by
            cases hcc : p a
            · exact absurd hcc hpa
            · rfl)
          exact hout (haa ▸ hk2)
        rw [List.filter_cons_of_neg]
        · exact ih hndt hk2 (fun x hx hp2 => huniq x (List.mem_cons_of_mem _ hx) hp2)
        · simp [hpa]

/-- C1: if the platform identifier starts with `linux`, exactly the Linux
message is printed and the `tab: complete` binding configured; if it
equals `darwin`, exactly the Darwin message is printed and the
`bind ^I rl_complete` binding configured; the two branches are mutually
exclusive; on any other identifier neither message nor binding occurs. -/
theorem platform_dispatch_correct (p : String) :
    (strStartsWith p "linux" = true →
       msgsPrinted p = ["use linux..."] ∧ keyBindings p = ["tab: complete"]) ∧
    (p = "darwin" →
       msgsPrinted p = ["use darwin..."] ∧ keyBindings p = ["bind ^I rl_complete"]) ∧
    ¬(strStartsWith p "linux" = true ∧ p = "darwin") ∧
    (strStartsWith p "linux" = false → p ≠ "darwin" →
       msgsPrinted p = [] ∧ keyBindings p = []) := by
  refine ⟨?_, ?_, ?_, ?_⟩
  · intro h
    simp [msgsPrinted, keyBindings, startupTrace, platformEvents, h]
  · intro h
    subst h
    decide
  · rintro ⟨h1, h2⟩
    subst h2
    exact absurd h1 (by decide)
  · intro h1 h2
    simp [msgsPrinted, keyBindings, startupTrace, platformEvents, h1, h2]

/-- Witness for C1 at the concrete platforms `linux`, `darwin`, `win32`. -/
theorem platform_dispatch_correct_witness :
    (msgsPrinted "linux" = ["use linux..."] ∧ keyBindings "linux" = ["tab: complete"]) ∧
    (msgsPrinted "darwin" = ["use darwin..."] ∧ keyBindings "darwin" = ["bind ^I rl_complete"]) ∧
    (msgsPrinted "win32" = [] ∧ keyBindings "win32" = []) :=
  ⟨(platform_dispatch_correct "linux").1 (by decide),
   (platform_dispatch_correct "darwin").2.1 rfl,
   (platform_dispatch_correct "win32").2.2.2 (by decide) (by decide)⟩

/-- C2: an error raised by a user-submitted statement is caught by the
loop, printed as a diagnostic, leaves the namespace unchanged, and the
session continues: the rest of the session runs exactly as it would from
the same namespace, so the next valid statement still executes. -/
theorem statement_error_contained (ns : Dict) (x : String) (e : Expr) (m : String)
    (rest : List Stmt) (h : evalExpr ns e = .error m) :
    execStmt ns (.expr e) = (ns, [.diag m]) ∧
    execStmt ns (.assign x e) = (ns, [.diag m]) ∧
    interactLoop ns (.expr e :: rest) =
      ⟨(interactLoop ns rest).ns,
       .prompt :: .diag m :: (interactLoop ns rest).outs,
       (interactLoop ns rest).exitCode⟩ := by
  refine ⟨by simp [execStmt, h], by simp [execStmt, h], ?_⟩
  simp [interactLoop, execStmt, h]

/-- Witness for C2: referencing the undefined name `y` in the empty
namespace, followed by a valid assignment. -/
theorem statement_error_contained_witness :
    evalExpr [] (.var "y") = .error "NameError: name y is not defined" ∧
    (execStmt [] (.expr (.var "y")) = ([], [.diag "NameError: name y is not defined"]) ∧
     execStmt [] (.assign "x" (.var "y")) = ([], [.diag "NameError: name y is not defined"]) ∧
     interactLoop [] (.expr (.var "y") :: [.assign "x" (.lit 5)]) =
       ⟨(interactLoop [] [.assign "x" (.lit 5)]).ns,
        .prompt :: .diag "NameError: name y is not defined" ::
          (interactLoop [] [.assign "x" (.lit 5)]).outs,
        (interactLoop [] [.assign "x" (.lit 5)]).exitCode⟩) :=
  ⟨rfl, statement_error_contained [] "x" (.var "y")
    "NameError: name y is not defined" [.assign "x" (.lit 5)] rfl⟩

/-- C3: the loop terminates exactly at end-of-input or at an explicit
exit action.  On empty input it returns at once with exit code 0 and no
prompt; on exit-free input it consumes every statement (one prompt each,
none after end-of-input) and exits with code 0; an explicit exit action
stops the loop there and its exit code is passed through. -/
theorem loop_terminates_on_eof (ns : Dict) (input : List Stmt)
    (h : ∀ s ∈ input, isExitAction s = false) :
    interactLoop ns [] = ⟨ns, [], 0⟩ ∧
    (interactLoop ns input).exitCode = 0 ∧
    promptCount (interactLoop ns input).outs = input.length ∧
    ∀ (c : Nat) (more : List Stmt),
      interactLoop ns (.exitAction c :: more) = ⟨ns, [.prompt], c⟩ :=
  ⟨rfl, (interactLoop_no_exit input ns h).1, (interactLoop_no_exit input ns h).2,
   fun _ _ => rfl⟩

/-- Witness for C3: a two-statement exit-free session. -/
theorem loop_terminates_on_eof_witness :
    (∀ s ∈ [Stmt.assign "x" (.lit 5), Stmt.expr (.var "x")], isExitAction s = false) ∧
    (interactLoop [] [] = ⟨[], [], 0⟩ ∧
     (interactLoop [] [Stmt.assign "x" (.lit 5), Stmt.expr (.var "x")]).exitCode = 0 ∧
     promptCount (interactLoop [] [Stmt.assign "x" (.lit 5), Stmt.expr (.var "x")]).outs =
       [Stmt.assign "x" (.lit 5), Stmt.expr (.var "x")].length ∧
     ∀ (c : Nat) (more : List Stmt),
       interactLoop [] (.exitAction c :: more) = ⟨[], [.prompt], c⟩) :=
  ⟨by decide, loop_terminates_on_eof [] [Stmt.assign "x" (.lit 5), Stmt.expr (.var "x")]
    (by decide)⟩

/-- C4: when the partial identifier is a prefix of exactly one key of the
execution namespace, the completion callback yields that key as the sole
candidate. -/
theorem unique_prefix_completion (ns : Dict) (text k : String)
    (hnd : (keys ns).Nodup) (hk : k ∈ keys ns) (hpk : strStartsWith k text = true)
    (huniq : ∀ k2 ∈ keys ns, strStartsWith k2 text = true → k2 = k) :
    completeCandidates ns text = [k] :=
  filter_eq_singleton_of_unique hnd hk hpk huniq

/-- Witness for C4: in the namespace left by the imports, `co` is a
prefix of exactly the key `code`. -/
theorem unique_prefix_completion_witness :
    ((keys importedGlobals).Nodup ∧ "code" ∈ keys importedGlobals ∧
     strStartsWith "code" "co" = true ∧
     (∀ k2 ∈ keys importedGlobals, strStartsWith k2 "co" = true → k2 = "code")) ∧
    completeCandidates importedGlobals "co" = ["code"] :=
  ⟨⟨by decide, by decide, by decide, by decide⟩,
   unique_prefix_completion importedGlobals "co" "code"
     (by decide) (by decide) (by decide) (by decide)⟩

/-- C5: an identifier bound by a user-submitted assignment is stored by
mutating the execution namespace in place, and it still resolves to the
assigned value after any further statements that do not rebind it. -/
theorem namespace_persistence (ns : Dict) (x : String) (e : Expr) (v : Value)
    (rest : List Stmt) (hv : evalExpr ns e = .ok v)
    (hrest : ∀ s ∈ rest, assignsVar s x = false) :
    (execStmt ns (.assign x e)).1 = insert ns x v ∧
    lookup (execStmt ns (.assign x e)).1 x = some v ∧
    lookup (interactLoop (execStmt ns (.assign x e)).1 rest).ns x = some v := by
  have h1 : (execStmt ns (.assign x e)).1 = insert ns x v := by simp [execStmt, hv]
  refine ⟨h1, ?_, ?_⟩
  · rw [h1]
    exact lookup_insert_self ns x v
  · rw [interactLoop_lookup_preserved rest _ x hrest, h1]
    exact lookup_insert_self ns x v

/-- Witness for C5: assigning `x = 5` and then reading `x`. -/
theorem namespace_persistence_witness :
    evalExpr [] (.lit 5) = .ok (.int 5) ∧
    (∀ s ∈ [Stmt.expr (.var "x")], assignsVar s "x" = false) ∧
    ((execStmt [] (.assign "x" (.lit 5))).1 = insert [] "x" (.int 5) ∧
     lookup (execStmt [] (.assign "x" (.lit 5))).1 "x" = some (.int 5) ∧
     lookup (interactLoop (execStmt [] (.assign "x" (.lit 5))).1
       [Stmt.expr (.var "x")]).ns "x" = some (.int 5)) :=
  ⟨rfl, by decide,
   namespace_persistence [] "x" (.lit 5) (.int 5) [Stmt.expr (.var "x")] rfl (by decide)⟩

/-- C6: the namespace handed to the console is the merge of the visible
global and local bindings into one mapping (at module level the two are
the same dictionary), and the completer and the console receive the very
same mapping. -/
theorem console_namespace_merged_and_shared :
    consoleNamespaceArg = some (.dictRef GLOBALS_ADDR) ∧
    completerNamespaceArg = consoleNamespaceArg ∧
    heapGet heapAfterLine9 GLOBALS_ADDR =
      some (dictUpdate (insert importedGlobals "vs" pyGlobals)
                       (insert importedGlobals "vs" pyGlobals)) := by
  refine ⟨by decide, rfl, by decide⟩

/-- C7: on a platform identifier that is neither Linux-family nor the
Darwin one, no message is printed and no binding is configured, and the
startup still reaches the interactive loop. -/
theorem unsupported_platform_silent (p : String)
    (h1 : strStartsWith p "linux" = false) (h2 : p ≠ "darwin") :
    msgsPrinted p = [] ∧ keyBindings p = [] ∧
    startupTrace p = [.buildNamespace, .registerCompleter, .enterLoop] ∧
    Event.enterLoop ∈ startupTrace p := by
  have h3 : platformEvents p = [] := by
    simp [platformEvents, h1, h2]
  refine ⟨?_, ?_, ?_, ?_⟩ <;>
    simp [msgsPrinted, keyBindings, startupTrace, h3]

/-- Witness for C7 at the concrete platform `win32`. -/
theorem unsupported_platform_silent_witness :
    (strStartsWith "win32" "linux" = false ∧ ("win32" : String) ≠ "darwin") ∧
    (msgsPrinted "win32" = [] ∧ keyBindings "win32" = [] ∧
     startupTrace "win32" = [.buildNamespace, .registerCompleter, .enterLoop] ∧
     Event.enterLoop ∈ startupTrace "win32") :=
  ⟨⟨by decide, by decide⟩, unsupported_platform_silent "win32" (by decide) (by decide)⟩

/-- C8: for every platform the startup trace begins with building the
namespace, then registering the completer, and ends with entering the
loop; each of these three occurs exactly once, so every platform-dependent
action (message or key binding) lies strictly between the registration and
the loop entry, and the loop is never entered before registration. -/
theorem startup_order (p : String) :
    (startupTrace p).head? = some .buildNamespace ∧
    (startupTrace p).get? 1 = some .registerCompleter ∧
    (startupTrace p).getLast? = some .enterLoop ∧
    (startupTrace p).count .buildNamespace = 1 ∧
    (startupTrace p).count .registerCompleter = 1 ∧
    (startupTrace p).count .enterLoop = 1 := by
  rcases platformEvents_cases p with h | h | h <;>
    simp only [startupTrace, h] <;> decide

/-- C9: the mapping passed to the console is a reference to the module
global dictionary itself (an alias, not a copy); at launch that dictionary
binds `code`, `readline`, `rlcompleter`, `sys` and `vs` (the latter to the
dictionary itself), and an assignment executed by the console mutates that
same module-global dictionary. -/
theorem console_namespace_is_module_globals :
    consoleNamespaceArg = some (.dictRef GLOBALS_ADDR) ∧
    heapGet heapAfterLine9 GLOBALS_ADDR = some moduleGlobalsAtLaunch ∧
    lookup moduleGlobalsAtLaunch "code" = some (.module "code") ∧
    lookup moduleGlobalsAtLaunch "readline" = some (.module "readline") ∧
    lookup moduleGlobalsAtLaunch "rlcompleter" = some (.module "rlcompleter") ∧
    lookup moduleGlobalsAtLaunch "sys" = some (.module "sys") ∧
    lookup moduleGlobalsAtLaunch "vs" = some (.dictRef GLOBALS_ADDR) ∧
    ∀ (x : String) (v : Value),
      heapGet (consoleAssign heapAfterLine9 (.dictRef GLOBALS_ADDR) x v) GLOBALS_ADDR =
        some (insert moduleGlobalsAtLaunch x v) := by
  refine ⟨by decide, by decide, by decide, by decide, by decide, by decide, by decide,
    fun x v => rfl⟩

/-- C10: the completer registration is unconditional and precedes the
platform dispatch: for every platform identifier the first two trace
events are building the namespace and registering the completer, so the
completer is installed whatever the platform. -/
theorem completer_registered_unconditionally (p : String) :
    (startupTrace p).take 2 = [.buildNamespace, .registerCompleter] ∧
    Event.registerCompleter ∈ startupTrace p := by
  constructor
  · rfl
  · simp [startupTrace]

end Repl
